import Mathlib

/-!
Verification of the `fluent-serde` serialization adapter.

This file shallowly embeds the repository's two serde `Serializer`
implementations and proves / refutes the frozen claims about them.

Modelling conventions:

* `FluentValue<'static>` (from the external `fluent` crate) is embedded as
  `FluentValue` below with variants `str` (for `FluentValue::String`),
  `num` (for `FluentValue::Number`) and `none_` (for `FluentValue::None`).
  The `f64` payload of `FluentNumber` is modelled as `ℚ`; every numeric
  value appearing in the claims (0.0, 1.0, 42.0) is exactly representable
  in `f64`, and no claim depends on rounding, so the `as f64` casts are
  modelled as the exact embedding.  `FluentNumberOptions` is always
  `default()` in this code, so the options field is omitted.
* `FluentArgs<'static>` is embedded as an insertion-ordered association
  list; its external contract (`set` overwrites on duplicate key, `get`
  looks a key up) is the one the spec names at the data-model boundary.
* serde's data model (the set of `serialize_*` entry points a `Serialize`
  impl may invoke exactly one of) is embedded as the inductive `SValue`:
  driving a serializer with an `SValue` calls the corresponding method of
  the Rust source.  Byte slices `&[u8]` are lists of naturals `< 256`.
* Rust methods that mutate `&mut self` and return `Result<T, Error>` are
  embedded as functions returning `state × Except Error T`, so that the
  state left behind by a *failing* call is also captured (needed for the
  frame-effect claims).
-/

/-- Error taxonomy of `src/ser.rs` (`enum Error`).  The sub-taxonomy in
`src/ser/value.rs` is the same minus `InvalidSerMap`. -/
inductive Error where
  | UnsupportedType
  | AlreadyUsed
  | NonUtf8Bytes
  | InvalidSerMap
  | Custom (msg : String)
deriving DecidableEq, Repr

/-- The target scalar model: `fluent::FluentValue<'static>` restricted to
the variants this adapter constructs (`String`, `Number`, `None`). -/
inductive FluentValue where
  | str (s : String)
  | num (q : ℚ)
  | none_
deriving DecidableEq, Repr

/-- Whether a `FluentValue` is the `String` variant. -/
def FluentValue.isStr : FluentValue → Bool
  | .str _ => true
  | _ => false

/-- `fluent::FluentArgs<'static>`: insertion-ordered list of
(key, value) pairs with unique keys. -/
abbrev FluentArgs := List (String × FluentValue)

deriving instance DecidableEq for Except

/-- `FluentArgs::set`: overwrite the first pair with the given key in
place, or append a new pair. -/
def FluentArgs.set : FluentArgs → String → FluentValue → FluentArgs
  | [], k, v => [(k, v)]
  | (k', v') :: rest, k, v =>
    if k' = k then (k, v) :: rest
    else (k', v') :: FluentArgs.set rest k v

/-- `FluentArgs::get`: first value stored under the key. -/
def FluentArgs.get : FluentArgs → String → Option FluentValue
  | [], _ => none
  | (k', v') :: rest, k => if k' = k then some v' else FluentArgs.get rest k

/-- The keys of an argument map, in order. -/
def FluentArgs.keys (args : FluentArgs) : List String :=
  (args : List (String × FluentValue)).map Prod.fst

/-- The integer widths of serde's data model (`serialize_i8` …
`serialize_u128`). -/
inductive IntWidth where
  | i8 | i16 | i32 | i64 | i128 | u8 | u16 | u32 | u64 | u128
deriving DecidableEq, Repr

/-- The floating widths of serde's data model (`serialize_f32`,
`serialize_f64`). -/
inductive FloatWidth where
  | f32 | f64
deriving DecidableEq, Repr

/-- serde's data model: one constructor per `serialize_*` entry point
that a `Serialize` implementation can invoke on a serializer.  Composite
shapes carry the sub-values the `Serialize` impl would feed to the
returned compound serializer. -/
inductive SValue where
  | vbool (b : Bool)
  | vint (w : IntWidth) (n : ℤ)
  | vfloat (w : FloatWidth) (x : ℚ)
  | vchar (c : Char)
  | vstr (s : String)
  | vbytes (bs : List ℕ)
  | vnone
  | vsome (v : SValue)
  | vunit
  | vunitStruct (name : String)
  | vunitVariant (name : String) (idx : ℕ) (variant : String)
  | vnewtypeStruct (name : String) (v : SValue)
  | vnewtypeVariant (name : String) (idx : ℕ) (variant : String) (v : SValue)
  | vseq (xs : List SValue)
  | vtuple (xs : List SValue)
  | vtupleStruct (name : String) (xs : List SValue)
  | vtupleVariant (name : String) (idx : ℕ) (variant : String) (xs : List SValue)
  | vmap (ps : List (SValue × SValue))
  | vstruct (name : String) (fields : List (String × SValue))
  | vstructVariant (name : String) (idx : ℕ) (variant : String)
      (fields : List (String × SValue))

/-- The `v as f64` cast in `impl_cast_num!`: exact for every value the
claims exercise (see the modelling conventions above). -/
def intAsF64 (_w : IntWidth) (n : ℤ) : ℚ := n

/-- The `v as f64` cast for float inputs (`f32 as f64` is exact). -/
def floatAsF64 (_w : FloatWidth) (x : ℚ) : ℚ := x

/-- Strict UTF-8 decoding of a byte sequence, as performed by
`std::str::from_utf8` in `serialize_bytes` (src/ser/value.rs): rejects
stray continuation bytes, overlong encodings, surrogate code points and
code points above U+10FFFF. -/
def utf8Decode : List ℕ → Option (List Char)
  | [] => some []
  | b :: rest =>
    if b < 0x80 then
      (utf8Decode rest).map (fun cs => Char.ofNat b :: cs)
    else if b < 0xC2 then
      none
    else if b < 0xE0 then
      match rest with
      | c1 :: rest' =>
        if 0x80 ≤ c1 ∧ c1 < 0xC0 then
          (utf8Decode rest').map
            (fun cs => Char.ofNat ((b - 0xC0) * 0x40 + (c1 - 0x80)) :: cs)
        else none
      | [] => none
    else if b < 0xF0 then
      match rest with
      | c1 :: c2 :: rest' =>
        let cp := (b - 0xE0) * 0x1000 + (c1 - 0x80) * 0x40 + (c2 - 0x80)
        if (0x80 ≤ c1 ∧ c1 < 0xC0) ∧ (0x80 ≤ c2 ∧ c2 < 0xC0) ∧
            0x800 ≤ cp ∧ ¬ (0xD800 ≤ cp ∧ cp < 0xE000) then
          (utf8Decode rest').map (fun cs => Char.ofNat cp :: cs)
        else none
      | _ => none
    else if b < 0xF5 then
      match rest with
      | c1 :: c2 :: c3 :: rest' =>
        let cp := (b - 0xF0) * 0x40000 + (c1 - 0x80) * 0x1000 +
          (c2 - 0x80) * 0x40 + (c3 - 0x80)
        if (0x80 ≤ c1 ∧ c1 < 0xC0) ∧ (0x80 ≤ c2 ∧ c2 < 0xC0) ∧
            (0x80 ≤ c3 ∧ c3 < 0xC0) ∧
            0x10000 ≤ cp ∧ cp ≤ 0x10FFFF then
          (utf8Decode rest').map (fun cs => Char.ofNat cp :: cs)
        else none
      | _ => none
    else none

/-- The single-value conversion of `src/ser/value.rs`, in the
direct-return reading used by its caller (`src/ser/args.rs` drives a
fresh `ValueSerializer` exactly once per key or value and consumes the
produced `FluentValue`).  Each branch is the `FluentValue` that the
corresponding `serialize_*` method of the source stores with
`set_value`; the equivalence with the stateful write-once form is proved
below (`valueSerializer_serialize_fresh`). -/
def valueSerialize : SValue → Except Error FluentValue
  | .vbool b => .ok (.num (if b then 1 else 0))
  | .vint w n => .ok (.num (intAsF64 w n))
  | .vfloat w x => .ok (.num (floatAsF64 w x))
  | .vchar c => .ok (.str (String.mk [c]))
  | .vstr s => .ok (.str s)
  | .vbytes bs =>
    match utf8Decode bs with
    | some cs => .ok (.str (String.mk cs))
    | none => .error .NonUtf8Bytes
  | .vnone => .ok .none_
  | .vsome v => valueSerialize v
  | .vunit => .ok .none_
  | .vunitStruct name => .ok (.str name)
  | .vunitVariant _ _ variant => .ok (.str variant)
  | .vnewtypeStruct _ v => valueSerialize v
  | .vnewtypeVariant _ _ _ v => valueSerialize v
  | .vseq _ => .error .UnsupportedType
  | .vtuple _ => .error .UnsupportedType
  | .vtupleStruct _ _ => .error .UnsupportedType
  | .vtupleVariant _ _ _ _ => .error .UnsupportedType
  | .vmap _ => .error .UnsupportedType
  | .vstruct _ _ => .error .UnsupportedType
  | .vstructVariant _ _ _ _ => .error .UnsupportedType

/-- `ValueSerializer` of `src/ser/value.rs`: the slot-based (write-once)
variant, holding `value: Option<FluentValue<'static>>`. -/
structure ValueSerializer where
  value : Option FluentValue
deriving DecidableEq, Repr

/-- `ValueSerializer::set_value`: fails with `AlreadyUsed` (leaving the
slot untouched) when the slot is already populated, otherwise stores the
value. -/
def ValueSerializer.set_value (s : ValueSerializer) (v : FluentValue) :
    ValueSerializer × Except Error Unit :=
  if s.value.isSome then (s, .error .AlreadyUsed)
  else ({ value := some v }, .ok ())

/-- The `Serializer for &mut ValueSerializer` impl of `src/ser/value.rs`,
as a state transformer: each `serialize_*` method either calls
`set_value`, recurses (`serialize_some`, `serialize_newtype_struct`,
`serialize_newtype_variant`), or fails with `UnsupportedType`
(`serialize_bytes` first validates UTF-8). -/
def ValueSerializer.serialize (s : ValueSerializer) :
    SValue → ValueSerializer × Except Error Unit
  | .vbool b => s.set_value (.num (if b then 1 else 0))
  | .vint w n => s.set_value (.num (intAsF64 w n))
  | .vfloat w x => s.set_value (.num (floatAsF64 w x))
  | .vchar c => s.set_value (.str (String.mk [c]))
  | .vstr t => s.set_value (.str t)
  | .vbytes bs =>
    match utf8Decode bs with
    | some cs => s.set_value (.str (String.mk cs))
    | none => (s, .error .NonUtf8Bytes)
  | .vnone => s.set_value .none_
  | .vsome v => s.serialize v
  | .vunit => s.set_value .none_
  | .vunitStruct name => s.set_value (.str name)
  | .vunitVariant _ _ variant => s.set_value (.str variant)
  | .vnewtypeStruct _ v => s.serialize v
  | .vnewtypeVariant _ _ _ v => s.serialize v
  | .vseq _ => (s, .error .UnsupportedType)
  | .vtuple _ => (s, .error .UnsupportedType)
  | .vtupleStruct _ _ => (s, .error .UnsupportedType)
  | .vtupleVariant _ _ _ _ => (s, .error .UnsupportedType)
  | .vmap _ => (s, .error .UnsupportedType)
  | .vstruct _ _ => (s, .error .UnsupportedType)
  | .vstructVariant _ _ _ _ => (s, .error .UnsupportedType)

/-- `SerMap` of `src/ser/args.rs`: the `SerializeMap` state, holding the
mutably borrowed argument map and the optional pending key
(`current_key`). -/
structure SerMap where
  args : FluentArgs
  current_key : Option String
deriving DecidableEq, Repr

/-- `SerMap::serialize_key`: converts the key with a fresh
`ValueSerializer`; a `String` result replaces the pending key
(`Option::replace`), failing with `InvalidSerMap` when a key was already
pending; any other `FluentValue` fails with `UnsupportedType`. -/
def SerMap.serialize_key (m : SerMap) (key : SValue) :
    SerMap × Except Error Unit :=
  match valueSerialize key with
  | .error e => (m, .error e)
  | .ok v =>
    match v with
    | .str k =>
      match m.current_key with
      | some _ => ({ m with current_key := some k }, .error .InvalidSerMap)
      | none => ({ m with current_key := some k }, .ok ())
    | _ => (m, .error .UnsupportedType)

/-- `SerMap::serialize_value`: takes the pending key
(`Option::take`, clearing it), fails with `InvalidSerMap` when none is
pending, otherwise converts the value with a fresh `ValueSerializer` and
inserts the pair with `FluentArgs::set`. -/
def SerMap.serialize_value (m : SerMap) (v : SValue) :
    SerMap × Except Error Unit :=
  match m.current_key with
  | some key =>
    match valueSerialize v with
    | .error e => ({ m with current_key := none }, .error e)
    | .ok fv => ({ args := m.args.set key fv, current_key := none }, .ok ())
  | none => (m, .error .InvalidSerMap)

/-- `SerMap::end`: succeeds iff no key is pending. -/
def SerMap.endMap (m : SerMap) : Except Error Unit :=
  if m.current_key.isNone then .ok () else .error .InvalidSerMap

/-- serde's `SerializeMap::serialize_entry` default: `serialize_key`
then, on success, `serialize_value`.  This is how a `Serialize` impl for
a map feeds each pair to `SerMap`. -/
def SerMap.entryStep (m : SerMap) (k v : SValue) :
    SerMap × Except Error Unit :=
  match SerMap.serialize_key m k with
  | (m', .error e) => (m', .error e)
  | (m', .ok _) => SerMap.serialize_value m' v

/-- Fail-fast iteration of `SerMap.entryStep` over the pairs of a
map-shaped value, as serde's map `Serialize` impls do. -/
def runMapEntries (m : SerMap) :
    List (SValue × SValue) → SerMap × Except Error Unit
  | [] => (m, .ok ())
  | (k, v) :: rest =>
    match SerMap.entryStep m k v with
    | (m', .ok _) => runMapEntries m' rest
    | (m', .error e) => (m', .error e)

/-- `SerStruct::serialize_field` / `SerStructVariant::serialize_field`
iterated fail-fast over the fields of a struct-shaped value: each field
value is converted with a fresh `ValueSerializer` and inserted under the
field's static name with `FluentArgs::set`. -/
def runStructFields (args : FluentArgs) :
    List (String × SValue) → FluentArgs × Except Error Unit
  | [] => (args, .ok ())
  | (k, v) :: rest =>
    match valueSerialize v with
    | .error e => (args, .error e)
    | .ok fv => runStructFields (args.set k fv) rest

/-- `ArgsSerializer` of `src/ser/args.rs`: owns the accumulated
`FluentArgs`. -/
structure ArgsSerializer where
  args : FluentArgs
deriving DecidableEq, Repr

/-- `ArgsSerializer::new` (= `default()`): empty argument map. -/
def ArgsSerializer.new : ArgsSerializer := ⟨[]⟩

/-- `ArgsSerializer::from_existing`. -/
def ArgsSerializer.from_existing (args : FluentArgs) : ArgsSerializer :=
  ⟨args⟩

/-- `ArgsSerializer::done`: releases the accumulated map. -/
def ArgsSerializer.done (s : ArgsSerializer) : FluentArgs := s.args

/-- The error a top-level integer of the given width produces in
`Serializer for &mut ArgsSerializer`: `src/ser/args.rs` overrides
`serialize_i8..i64` and `serialize_u8..u64` with
`Err(Error::UnsupportedType)`, but does not override
`serialize_i128`/`serialize_u128`, so those fall through to serde's
provided defaults, which return `Err(Error::custom("i128 is not
supported"))` / `Err(Error::custom("u128 is not supported"))` — i.e.
the `Custom` variant via this `Error`'s `ser::Error::custom`. -/
def argsIntError : IntWidth → Error
  | .i128 => .Custom "i128 is not supported"
  | .u128 => .Custom "u128 is not supported"
  | _ => .UnsupportedType

/-- The `Serializer for &mut ArgsSerializer` impl of `src/ser/args.rs`,
driven by one self-describing value: scalar, sequence and tuple shapes
fail with `UnsupportedType` before any compound serializer exists
(except the unoverridden 128-bit integer widths, which fail with serde's
default `Custom` error, see `argsIntError`);
`none`/`unit`/`unit_struct`/`unit_variant` are no-ops; `some` and the
newtype wrappers recurse; a map runs `SerMap` over its pairs and then
`SerMap::end` (serde only calls `end` when every entry succeeded); a
struct or struct variant runs `serialize_field` over its fields
(`SerStruct::end` / `SerStructVariant::end` always succeed). -/
def argsSerialize (s : ArgsSerializer) :
    SValue → ArgsSerializer × Except Error Unit
  | .vbool _ => (s, .error .UnsupportedType)
  | .vint w _ => (s, .error (argsIntError w))
  | .vfloat _ _ => (s, .error .UnsupportedType)
  | .vchar _ => (s, .error .UnsupportedType)
  | .vstr _ => (s, .error .UnsupportedType)
  | .vbytes _ => (s, .error .UnsupportedType)
  | .vnone => (s, .ok ())
  | .vsome v => argsSerialize s v
  | .vunit => (s, .ok ())
  | .vunitStruct _ => (s, .ok ())
  | .vunitVariant _ _ _ => (s, .ok ())
  | .vnewtypeStruct _ v => argsSerialize s v
  | .vnewtypeVariant _ _ _ v => argsSerialize s v
  | .vseq _ => (s, .error .UnsupportedType)
  | .vtuple _ => (s, .error .UnsupportedType)
  | .vtupleStruct _ _ => (s, .error .UnsupportedType)
  | .vtupleVariant _ _ _ _ => (s, .error .UnsupportedType)
  | .vmap ps =>
    match runMapEntries { args := s.args, current_key := none } ps with
    | (m, .error e) => (⟨m.args⟩, .error e)
    | (m, .ok _) =>
      match SerMap.endMap m with
      | .ok _ => (⟨m.args⟩, .ok ())
      | .error e => (⟨m.args⟩, .error e)
  | .vstruct _ fields =>
    match runStructFields s.args fields with
    | (a, r) => (⟨a⟩, r)
  | .vstructVariant _ _ _ fields =>
    match runStructFields s.args fields with
    | (a, r) => (⟨a⟩, r)

/-- Driving one `ArgsSerializer` through a whole sequence of top-level
inputs (the serializer stays usable after an error; the state a failing
call leaves behind is kept). -/
def runAll (s : ArgsSerializer) : List SValue → ArgsSerializer
  | [] => s
  | v :: rest => runAll (argsSerialize s v).1 rest

/-- Key uniqueness of an argument map. -/
def nodupKeys (args : FluentArgs) : Prop := args.keys.Nodup

example : valueSerialize (.vbytes [102, 111, 111]) = .ok (.str "foo") := by decide
example : valueSerialize (.vbytes [0xFF]) = .error .NonUtf8Bytes := by decide
example : valueSerialize (.vbool true) = .ok (.num 1) := by decide
example : valueSerialize (.vint .i32 42) = .ok (.num 42) := by decide
example :
    argsSerialize ArgsSerializer.new (.vmap [(.vstr "foo", .vint .i32 42)]) =
      (⟨[("foo", .num 42)]⟩, .ok ()) := by decide
example :
    argsSerialize ⟨[("foo", .num 42)]⟩ (.vmap [(.vstr "bar", .vstr "baz")]) =
      (⟨[("foo", .num 42), ("bar", .str "baz")]⟩, .ok ()) := by decide
example :
    argsSerialize ArgsSerializer.new
        (.vstruct "S" [("a", .vint .i32 1), ("a", .vint .i32 2), ("a", .vseq [])]) =
      (⟨[("a", .num 2)]⟩, .error .UnsupportedType) := by decide
example :
    (SerMap.serialize_key ⟨[], some "a"⟩ (.vint .i32 42)).2 =
      .error .UnsupportedType := by decide

/-- On a fresh (empty-slot) `ValueSerializer`, the stateful write-once
visitor of `src/ser/value.rs` agrees with the direct-return reading
`valueSerialize`: success stores exactly the produced value, failure
leaves the slot empty. -/
theorem valueSerializer_serialize_fresh : ∀ v : SValue,
    ValueSerializer.serialize ⟨none⟩ v =
      (match valueSerialize v with
       | .ok fv => (⟨some fv⟩, .ok ())
       | .error e => (⟨none⟩, .error e))
  | .vbool _ => rfl
  | .vint _ _ => rfl
  | .vfloat _ _ => rfl
  | .vchar _ => rfl
  | .vstr _ => rfl
  | .vbytes bs => by
    simp only [ValueSerializer.serialize, valueSerialize]
    cases utf8Decode bs <;> rfl
  | .vnone => rfl
  | .vsome v => valueSerializer_serialize_fresh v
  | .vunit => rfl
  | .vunitStruct _ => rfl
  | .vunitVariant _ _ _ => rfl
  | .vnewtypeStruct _ v => valueSerializer_serialize_fresh v
  | .vnewtypeVariant _ _ _ v => valueSerializer_serialize_fresh v
  | .vseq _ => rfl
  | .vtuple _ => rfl
  | .vtupleStruct _ _ => rfl
  | .vtupleVariant _ _ _ _ => rfl
  | .vmap _ => rfl
  | .vstruct _ _ => rfl
  | .vstructVariant _ _ _ _ => rfl

/-- A serializer whose slot is already populated is never modified by a
further visit (`set_value` rejects the write without touching the
slot). -/
theorem valueSerializer_serialize_used : ∀ (v : SValue) (s : ValueSerializer)
    (w : FluentValue), s.value = some w → (s.serialize v).1 = s
  | .vbool _, s, _, h => by
    simp [ValueSerializer.serialize, ValueSerializer.set_value, h]
  | .vint _ _, s, _, h => by
    simp [ValueSerializer.serialize, ValueSerializer.set_value, h]
  | .vfloat _ _, s, _, h => by
    simp [ValueSerializer.serialize, ValueSerializer.set_value, h]
  | .vchar _, s, _, h => by
    simp [ValueSerializer.serialize, ValueSerializer.set_value, h]
  | .vstr _, s, _, h => by
    simp [ValueSerializer.serialize, ValueSerializer.set_value, h]
  | .vbytes bs, s, _, h => by
    simp only [ValueSerializer.serialize]
    cases utf8Decode bs <;>
      simp [ValueSerializer.set_value, h]
  | .vnone, s, _, h => by
    simp [ValueSerializer.serialize, ValueSerializer.set_value, h]
  | .vsome v, s, w, h => valueSerializer_serialize_used v s w h
  | .vunit, s, _, h => by
    simp [ValueSerializer.serialize, ValueSerializer.set_value, h]
  | .vunitStruct _, s, _, h => by
    simp [ValueSerializer.serialize, ValueSerializer.set_value, h]
  | .vunitVariant _ _ _, s, _, h => by
    simp [ValueSerializer.serialize, ValueSerializer.set_value, h]
  | .vnewtypeStruct _ v, s, w, h => valueSerializer_serialize_used v s w h
  | .vnewtypeVariant _ _ _ v, s, w, h => valueSerializer_serialize_used v s w h
  | .vseq _, _, _, _ => rfl
  | .vtuple _, _, _, _ => rfl
  | .vtupleStruct _ _, _, _, _ => rfl
  | .vtupleVariant _ _ _ _, _, _, _ => rfl
  | .vmap _, _, _, _ => rfl
  | .vstruct _ _, _, _, _ => rfl
  | .vstructVariant _ _ _ _, _, _, _ => rfl

/-- The single-value converter never produces `InvalidSerMap`: that
error belongs exclusively to the map call-sequence protocol. -/
theorem valueSerialize_error_ne_invalid : ∀ (v : SValue) (e : Error),
    valueSerialize v = .error e → e ≠ .InvalidSerMap
  | .vbool _, _, h => nomatch h
  | .vint _ _, _, h => nomatch h
  | .vfloat _ _, _, h => nomatch h
  | .vchar _, _, h => nomatch h
  | .vstr _, _, h => nomatch h
  | .vbytes bs, e, h => by
    revert h
    simp only [valueSerialize]
    cases utf8Decode bs with
    | none => intro h; cases h; decide
    | some _ => intro h; cases h
  | .vnone, _, h => nomatch h
  | .vsome v, e, h => valueSerialize_error_ne_invalid v e h
  | .vunit, _, h => nomatch h
  | .vunitStruct _, _, h => nomatch h
  | .vunitVariant _ _ _, _, h => nomatch h
  | .vnewtypeStruct _ v, e, h => valueSerialize_error_ne_invalid v e h
  | .vnewtypeVariant _ _ _ v, e, h => valueSerialize_error_ne_invalid v e h
  | .vseq _, _, h => by cases h; decide
  | .vtuple _, _, h => by cases h; decide
  | .vtupleStruct _ _, _, h => by cases h; decide
  | .vtupleVariant _ _ _ _, _, h => by cases h; decide
  | .vmap _, _, h => by cases h; decide
  | .vstruct _ _, _, h => by cases h; decide
  | .vstructVariant _ _ _ _, _, h => by cases h; decide

/-- `FluentArgs::set` then `get` of the same key yields the new value
(last write wins). -/
theorem FluentArgs.get_set_self (a : FluentArgs) (k : String)
    (v : FluentValue) : (a.set k v).get k = some v := by
  induction a with
  | nil => simp [FluentArgs.set, FluentArgs.get]
  | cons p rest ih =>
    obtain ⟨k', v'⟩ := p
    by_cases h : k' = k <;>
      simp [FluentArgs.set, FluentArgs.get, h, ih]

/-- Membership in the keys of a map after `set`. -/
theorem FluentArgs.mem_keys_set (a : FluentArgs) (k x : String)
    (v : FluentValue) : x ∈ (a.set k v).keys ↔ x ∈ a.keys ∨ x = k := by
  induction a with
  | nil => simp [FluentArgs.set, FluentArgs.keys]
  | cons p rest ih =>
    obtain ⟨k', v'⟩ := p
    by_cases h : k' = k
    · subst h
      simp [FluentArgs.set, FluentArgs.keys]
      tauto
    · simp [FluentArgs.set, FluentArgs.keys, h] at ih ⊢
      tauto

/-- `FluentArgs::set` preserves key uniqueness. -/
theorem FluentArgs.nodupKeys_set (a : FluentArgs) (k : String)
    (v : FluentValue) (h : nodupKeys a) : nodupKeys (a.set k v) := by
  induction a with
  | nil => simp [FluentArgs.set, nodupKeys, FluentArgs.keys]
  | cons p rest ih =>
    obtain ⟨k', v'⟩ := p
    simp only [nodupKeys, FluentArgs.keys, List.map_cons, List.nodup_cons] at h
    by_cases hk : k' = k
    · subst hk
      simpa [FluentArgs.set, nodupKeys, FluentArgs.keys] using h
    · have h1 : k' ∉ (FluentArgs.set rest k v).keys := by
        rw [FluentArgs.mem_keys_set]
        rintro (hmem | rfl)
        · exact h.1 hmem
        · exact hk rfl
      have h2 := ih h.2
      simp only [FluentArgs.set, hk, if_false, nodupKeys, FluentArgs.keys,
        List.map_cons, List.nodup_cons]
      exact ⟨h1, h2⟩

/-- A failing `SerMap.entryStep` never inserts: the argument map held by
the state it leaves behind is unchanged. -/
theorem SerMap.entryStep_error_args (m : SerMap) (k v : SValue) (e : Error)
    (h : (SerMap.entryStep m k v).2 = .error e) :
    (SerMap.entryStep m k v).1.args = m.args := by
  revert h
  simp only [SerMap.entryStep, SerMap.serialize_key, SerMap.serialize_value]
  cases valueSerialize k with
  | error e' => intro; rfl
  | ok fv =>
    cases fv with
    | str s =>
      cases m.current_key with
      | some old => intro; rfl
      | none =>
        simp only
        cases valueSerialize v with
        | error e' => intro; rfl
        | ok fv' => intro h; cases h
    | num q => intro; rfl
    | none_ => intro; rfl

/-- Starting with no pending key, one `entryStep` (key then value)
either succeeds and again leaves no pending key, or fails with an error
other than `InvalidSerMap`. -/
theorem SerMap.entryStep_none (m : SerMap) (k v : SValue)
    (h : m.current_key = none) :
    (∀ u, (SerMap.entryStep m k v).2 = .ok u →
      (SerMap.entryStep m k v).1.current_key = none) ∧
    (∀ e, (SerMap.entryStep m k v).2 = .error e → e ≠ .InvalidSerMap) := by
  simp only [SerMap.entryStep, SerMap.serialize_key, SerMap.serialize_value]
  cases hk : valueSerialize k with
  | error e' =>
    exact ⟨fun u hu => (nomatch hu),
      fun e he => by
        cases he
        exact valueSerialize_error_ne_invalid k e' hk⟩
  | ok fv =>
    cases fv with
    | str s =>
      rw [h]
      simp only
      cases hv : valueSerialize v with
      | error e' =>
        exact ⟨fun u hu => (nomatch hu),
          fun e he => by
            cases he
            exact valueSerialize_error_ne_invalid v e' hv⟩
      | ok fv' => exact ⟨fun u _ => rfl, fun e he => (nomatch he)⟩
    | num q =>
      exact ⟨fun u hu => (nomatch hu), fun e he => by cases he; decide⟩
    | none_ =>
      exact ⟨fun u hu => (nomatch hu), fun e he => by cases he; decide⟩

/-- Iterating entry steps from a state with no pending key: a successful
run ends with no pending key, and a failing run never fails with
`InvalidSerMap`. -/
theorem runMapEntries_none (ps : List (SValue × SValue)) :
    ∀ m : SerMap, m.current_key = none →
    (∀ u, (runMapEntries m ps).2 = .ok u →
      (runMapEntries m ps).1.current_key = none) ∧
    (∀ e, (runMapEntries m ps).2 = .error e → e ≠ .InvalidSerMap) := by
  induction ps with
  | nil => exact fun m h => ⟨fun u _ => h, fun e he => (nomatch he)⟩
  | cons p rest ih =>
    intro m h
    obtain ⟨k, v⟩ := p
    have hstep := SerMap.entryStep_none m k v h
    simp only [runMapEntries]
    cases hs : SerMap.entryStep m k v with
    | mk m' r =>
      cases r with
      | ok u =>
        have hck : m'.current_key = none := by
          have := hstep.1 u (by rw [hs])
          rwa [hs] at this
        exact ih m' hck
      | error e =>
        refine ⟨fun u hu => (nomatch hu), fun e' he' => ?_⟩
        cases he'
        exact hstep.2 e (by rw [hs])

/-- `runMapEntries` splits over list append, fail-fast. -/
theorem runMapEntries_append (ps qs : List (SValue × SValue)) :
    ∀ m : SerMap, runMapEntries m (ps ++ qs) =
      (match runMapEntries m ps with
       | (m', .ok _) => runMapEntries m' qs
       | (m', .error e) => (m', .error e)) := by
  induction ps with
  | nil => intro m; rfl
  | cons p rest ih =>
    intro m
    obtain ⟨k, v⟩ := p
    simp only [List.cons_append, runMapEntries]
    cases SerMap.entryStep m k v with
    | mk m' r =>
      cases r with
      | ok u => exact ih m'
      | error e => rfl

/-- `runStructFields` splits over list append, fail-fast. -/
theorem runStructFields_append (fs gs : List (String × SValue)) :
    ∀ a : FluentArgs, runStructFields a (fs ++ gs) =
      (match runStructFields a fs with
       | (a', .ok _) => runStructFields a' gs
       | (a', .error e) => (a', .error e)) := by
  induction fs with
  | nil => intro a; rfl
  | cons f rest ih =>
    intro a
    obtain ⟨k, v⟩ := f
    simp only [List.cons_append, runStructFields]
    cases valueSerialize v with
    | error e => rfl
    | ok fv => exact ih (a.set k fv)

/-- One map entry step preserves key uniqueness of the argument map. -/
theorem SerMap.entryStep_nodup (m : SerMap) (k v : SValue)
    (h : nodupKeys m.args) : nodupKeys (SerMap.entryStep m k v).1.args := by
  simp only [SerMap.entryStep, SerMap.serialize_key, SerMap.serialize_value]
  cases valueSerialize k with
  | error e => exact h
  | ok fv =>
    cases fv with
    | str s =>
      cases m.current_key with
      | some old => exact h
      | none =>
        simp only
        cases valueSerialize v with
        | error e => exact h
        | ok fv' => exact FluentArgs.nodupKeys_set _ _ _ h
    | num q => exact h
    | none_ => exact h

/-- Running map entries preserves key uniqueness. -/
theorem runMapEntries_nodup (ps : List (SValue × SValue)) :
    ∀ m : SerMap, nodupKeys m.args →
      nodupKeys (runMapEntries m ps).1.args := by
  induction ps with
  | nil => exact fun m h => h
  | cons p rest ih =>
    intro m h
    obtain ⟨k, v⟩ := p
    have hstep := SerMap.entryStep_nodup m k v h
    simp only [runMapEntries]
    cases hs : SerMap.entryStep m k v with
    | mk m' r =>
      rw [hs] at hstep
      cases r with
      | ok u => exact ih m' hstep
      | error e => exact hstep

/-- Running struct fields preserves key uniqueness. -/
theorem runStructFields_nodup (fs : List (String × SValue)) :
    ∀ a : FluentArgs, nodupKeys a → nodupKeys (runStructFields a fs).1 := by
  induction fs with
  | nil => exact fun a h => h
  | cons f rest ih =>
    intro a h
    obtain ⟨k, v⟩ := f
    simp only [runStructFields]
    cases valueSerialize v with
    | error e => exact h
    | ok fv => exact ih _ (FluentArgs.nodupKeys_set a k fv h)

/-- One aggregate conversion (of any shape, successful or not) preserves
key uniqueness of the accumulated argument map. -/
theorem argsSerialize_nodup : ∀ (v : SValue) (s : ArgsSerializer),
    nodupKeys s.args → nodupKeys (argsSerialize s v).1.args
  | .vbool _, _, h => h
  | .vint _ _, _, h => h
  | .vfloat _ _, _, h => h
  | .vchar _, _, h => h
  | .vstr _, _, h => h
  | .vbytes _, _, h => h
  | .vnone, _, h => h
  | .vsome v, s, h => argsSerialize_nodup v s h
  | .vunit, _, h => h
  | .vunitStruct _, _, h => h
  | .vunitVariant _ _ _, _, h => h
  | .vnewtypeStruct _ v, s, h => argsSerialize_nodup v s h
  | .vnewtypeVariant _ _ _ v, s, h => argsSerialize_nodup v s h
  | .vseq _, _, h => h
  | .vtuple _, _, h => h
  | .vtupleStruct _ _, _, h => h
  | .vtupleVariant _ _ _ _, _, h => h
  | .vmap ps, s, h => by
    have hrun := runMapEntries_nodup ps ⟨s.args, none⟩ h
    simp only [argsSerialize]
    split
    case h_1 m e heq => rw [heq] at hrun; exact hrun
    case h_2 m u heq =>
      rw [heq] at hrun
      split <;> exact hrun
  | .vstruct _ fields, s, h => by
    have hrun := runStructFields_nodup fields s.args h
    simpa only [argsSerialize] using hrun
  | .vstructVariant _ _ _ fields, s, h => by
    have hrun := runStructFields_nodup fields s.args h
    simpa only [argsSerialize] using hrun

/-- Key uniqueness holds after any sequence of aggregate conversions. -/
theorem runAll_nodup (inputs : List SValue) :
    ∀ s : ArgsSerializer, nodupKeys s.args →
      nodupKeys (runAll s inputs).args := by
  induction inputs with
  | nil => exact fun _ h => h
  | cons v rest ih => exact fun s h => ih _ (argsSerialize_nodup v s h)

/-- C1 counterexample: with key "a" already pending, presenting the
integer key 42 (which converts to the Number variant) fails with
UnsupportedType, not InvalidSerMap — `serialize_key` checks the
String-variant condition before the pending-key condition, so the claim
"a key-visit call made while a key is already pending returns
InvalidSerMap" is false as stated. -/
theorem claim_C1_cex :
    (SerMap.serialize_key ⟨[], some "a"⟩ (.vint .i32 42)).2 =
        .error .UnsupportedType ∧
      (SerMap.serialize_key ⟨[], some "a"⟩ (.vint .i32 42)).2 ≠
        .error .InvalidSerMap := by
  decide

/-- C1 (amended): a key-visit made while a key is already pending
returns InvalidSerMap provided the new key itself converts to the String
variant (otherwise the String-variant check fires first); a value-visit
with no pending key returns InvalidSerMap; ending the map visitation
with a pending key returns InvalidSerMap; and a protocol-driven run over
any list of pairs (key, value alternation then end) never returns
InvalidSerMap. -/
theorem claim_C1 :
    (∀ (a : FluentArgs) (old : String) (k : SValue) (s2 : String),
      valueSerialize k = .ok (.str s2) →
      (SerMap.serialize_key ⟨a, some old⟩ k).2 = .error .InvalidSerMap) ∧
    (∀ (a : FluentArgs) (v : SValue),
      (SerMap.serialize_value ⟨a, none⟩ v).2 = .error .InvalidSerMap) ∧
    (∀ (a : FluentArgs) (old : String),
      SerMap.endMap ⟨a, some old⟩ = .error .InvalidSerMap) ∧
    (∀ (a : FluentArgs) (ps : List (SValue × SValue)),
      (argsSerialize ⟨a⟩ (.vmap ps)).2 ≠ .error .InvalidSerMap) := by
  refine ⟨?_, ?_, ?_, ?_⟩
  · intro a old k s2 hk
    simp [SerMap.serialize_key, hk]
  · intro a v
    rfl
  · intro a old
    rfl
  · intro a ps
    have h := runMapEntries_none ps ⟨a, none⟩ rfl
    simp only [argsSerialize]
    split
    case h_1 m e heq =>
      have hne := h.2 e (by rw [heq])
      intro hcontra
      cases hcontra
      exact hne rfl
    case h_2 m u heq =>
      have hck : m.current_key = none := by
        have := h.1 u (by rw [heq])
        rwa [heq] at this
      simp only [SerMap.endMap, hck, Option.isNone_none, if_true]
      intro hcontra
      cases hcontra

/-- C1 witness: each amended conjunct instantiated at a concrete
input. -/
theorem claim_C1_witness :
    (SerMap.serialize_key ⟨[], some "old"⟩ (.vstr "b")).2 =
        .error .InvalidSerMap ∧
      (SerMap.serialize_value ⟨[], none⟩ (.vint .i32 1)).2 =
        .error .InvalidSerMap ∧
      SerMap.endMap ⟨[], some "p"⟩ = .error .InvalidSerMap ∧
      (argsSerialize ⟨[]⟩ (.vmap [(.vstr "k", .vint .i32 1)])).2 ≠
        .error .InvalidSerMap :=
  ⟨claim_C1.1 [] "old" (.vstr "b") "b" rfl,
   claim_C1.2.1 [] (.vint .i32 1),
   claim_C1.2.2.1 [] "p",
   claim_C1.2.2.2 [] [(.vstr "k", .vint .i32 1)]⟩

/-- C2: a map key is converted with the single-value converter first; a
key converting to the String variant becomes the pending key (with
success when no key was pending), and a key converting to any other
variant fails with UnsupportedType, leaving state and mapping
unchanged. -/
theorem claim_C2 :
    (∀ (a : FluentArgs) (ck : Option String) (k : SValue) (s2 : String),
      valueSerialize k = .ok (.str s2) →
      (SerMap.serialize_key ⟨a, ck⟩ k).1 = ⟨a, some s2⟩) ∧
    (∀ (a : FluentArgs) (k : SValue) (s2 : String),
      valueSerialize k = .ok (.str s2) →
      SerMap.serialize_key ⟨a, none⟩ k = (⟨a, some s2⟩, .ok ())) ∧
    (∀ (a : FluentArgs) (ck : Option String) (k : SValue) (fv : FluentValue),
      valueSerialize k = .ok fv → fv.isStr = false →
      SerMap.serialize_key ⟨a, ck⟩ k = (⟨a, ck⟩, .error .UnsupportedType)) := by
  refine ⟨?_, ?_, ?_⟩
  · intro a ck k s2 hk
    cases ck <;> simp [SerMap.serialize_key, hk]
  · intro a k s2 hk
    simp [SerMap.serialize_key, hk]
  · intro a ck k fv hk hstr
    cases fv with
    | str s => simp [FluentValue.isStr] at hstr
    | num q => simp [SerMap.serialize_key, hk]
    | none_ => simp [SerMap.serialize_key, hk]

/-- C2 witness: a String-converting key is accepted as pending; a
Number-converting key fails with UnsupportedType and inserts nothing. -/
theorem claim_C2_witness :
    SerMap.serialize_key ⟨[], none⟩ (.vstr "k") = (⟨[], some "k"⟩, .ok ()) ∧
      SerMap.serialize_key ⟨[], none⟩ (.vint .i32 7) =
        (⟨[], none⟩, .error .UnsupportedType) :=
  ⟨claim_C2.2.1 [] (.vstr "k") "k" rfl,
   claim_C2.2.2 [] none (.vint .i32 7) (.num 7) (by decide) rfl⟩

/-- C3: driving one aggregate converter through the map
`{"foo": 42}` and then `{"bar": "baz"}` and finishing yields exactly
`{"foo": Number(42.0), "bar": String("baz")}` — successive composite
inputs merge into the one accumulated mapping. -/
theorem claim_C3 :
    (argsSerialize ArgsSerializer.new
        (.vmap [(.vstr "foo", .vint .i32 42)])).2 = .ok () ∧
      argsSerialize
          (argsSerialize ArgsSerializer.new
            (.vmap [(.vstr "foo", .vint .i32 42)])).1
          (.vmap [(.vstr "bar", .vstr "baz")]) =
        (⟨[("foo", .num 42), ("bar", .str "baz")]⟩, .ok ()) ∧
      ((argsSerialize
          (argsSerialize ArgsSerializer.new
            (.vmap [(.vstr "foo", .vint .i32 42)])).1
          (.vmap [(.vstr "bar", .vstr "baz")])).1).done =
        [("foo", .num 42), ("bar", .str "baz")] := by
  decide

/-- C4 counterexample: converting the map with pairs
("a",1), ("a",2), ("a",[]) fails at the third pair; the pair
("a", Number(1.0)) was inserted by the first (successful) pair but is
not present afterwards, because the second pair overwrote it — so "every
key/value pair inserted by earlier successful pairs remains present"
is false as stated. -/
theorem claim_C4_cex :
    (argsSerialize ⟨[]⟩ (.vmap [(.vstr "a", .vint .i32 1)])).1.args =
        [("a", .num 1)] ∧
      argsSerialize ⟨[]⟩
          (.vmap [(.vstr "a", .vint .i32 1), (.vstr "a", .vint .i32 2),
            (.vstr "a", .vseq [])]) =
        (⟨[("a", .num 2)]⟩, .error .UnsupportedType) ∧
      ("a", FluentValue.num 1) ∉
        (argsSerialize ⟨[]⟩
          (.vmap [(.vstr "a", .vint .i32 1), (.vstr "a", .vint .i32 2),
            (.vstr "a", .vseq [])])).1.args := by
  decide

/-- C4 (amended): insertion is immediate and a failure rolls nothing
back — when a map or struct conversion fails at some pair or field, the
mapping afterwards is exactly the mapping produced by the successful
prefix, so every pair inserted by an earlier successful sibling remains
unless a later successful sibling overwrote the same key. -/
theorem claim_C4 :
    (∀ (a0 : FluentArgs) (ps : List (SValue × SValue)) (k v : SValue)
        (rest : List (SValue × SValue)) (m' : SerMap) (u : Unit) (e : Error),
      runMapEntries ⟨a0, none⟩ ps = (m', .ok u) →
      (SerMap.entryStep m' k v).2 = .error e →
      (argsSerialize ⟨a0⟩ (.vmap (ps ++ (k, v) :: rest))).2 = .error e ∧
        (argsSerialize ⟨a0⟩ (.vmap (ps ++ (k, v) :: rest))).1.args = m'.args) ∧
    (∀ (a0 : FluentArgs) (name : String) (fs : List (String × SValue))
        (k : String) (v : SValue) (rest : List (String × SValue))
        (a1 : FluentArgs) (u : Unit) (e : Error),
      runStructFields a0 fs = (a1, .ok u) →
      valueSerialize v = .error e →
      argsSerialize ⟨a0⟩ (.vstruct name (fs ++ (k, v) :: rest)) =
        (⟨a1⟩, .error e)) := by
  constructor
  · intro a0 ps k v rest m' u e h1 h2
    have hargs : (SerMap.entryStep m' k v).1.args = m'.args := by
      rcases hstep : SerMap.entryStep m' k v with ⟨m'', r⟩
      rw [hstep] at h2
      cases r with
      | ok u2 => cases h2
      | error e2 =>
        have := SerMap.entryStep_error_args m' k v e2 (by rw [hstep])
        rwa [hstep] at this
    simp only [argsSerialize, runMapEntries_append, h1]
    rcases hstep : SerMap.entryStep m' k v with ⟨m'', r⟩
    rw [hstep] at h2 hargs
    cases r with
    | ok u2 => cases h2
    | error e2 =>
      cases h2
      simp only [runMapEntries]
      rw [hstep]
      exact ⟨rfl, hargs⟩
  · intro a0 name fs k v rest a1 u e h1 h2
    simp only [argsSerialize, runStructFields_append, h1]
    simp only [runStructFields, h2]

/-- C4 witness: the amended theorem instantiated: prefix ("x",1)
succeeds, the following pair ("y", sequence) fails, and the mapping
afterwards is exactly the prefix's mapping. -/
theorem claim_C4_witness :
    ((argsSerialize ⟨[]⟩
        (.vmap [(.vstr "x", .vint .i32 1), (.vstr "y", .vseq [])])).2 =
          .error .UnsupportedType ∧
      (argsSerialize ⟨[]⟩
        (.vmap [(.vstr "x", .vint .i32 1), (.vstr "y", .vseq [])])).1.args =
          (⟨[("x", .num 1)], none⟩ : SerMap).args) ∧
    argsSerialize ⟨[]⟩
        (.vstruct "S" [("x", .vint .i32 1), ("y", .vseq [])]) =
      (⟨[("x", .num 1)]⟩, .error .UnsupportedType) :=
  ⟨claim_C4.1 [] [(.vstr "x", .vint .i32 1)] (.vstr "y") (.vseq []) []
      ⟨[("x", .num 1)], none⟩ () .UnsupportedType (by decide) (by decide),
   claim_C4.2 [] "S" [("x", .vint .i32 1)] "y" (.vseq []) []
      [("x", .num 1)] () .UnsupportedType (by decide) (by decide)⟩

/-- C5: the mapping never holds two pairs with one key — `set` is
last-write-wins, `set` preserves key uniqueness, and any sequence of
aggregate conversions starting from a fresh converter keeps the keys
unique. -/
theorem claim_C5 :
    (∀ (a : FluentArgs) (k : String) (v : FluentValue),
      (a.set k v).get k = some v) ∧
    (∀ (a : FluentArgs) (k : String) (v : FluentValue),
      nodupKeys a → nodupKeys (a.set k v)) ∧
    (∀ inputs : List SValue,
      nodupKeys (runAll ArgsSerializer.new inputs).args) := by
  refine ⟨FluentArgs.get_set_self, FluentArgs.nodupKeys_set, ?_⟩
  intro inputs
  exact runAll_nodup inputs ArgsSerializer.new
    (by simp [nodupKeys, FluentArgs.keys, ArgsSerializer.new])

/-- C5 witness: overwrite and uniqueness at concrete inputs. -/
theorem claim_C5_witness :
    (FluentArgs.set [("k", .num 1)] "k" (.num 2)).get "k" = some (.num 2) ∧
      nodupKeys (FluentArgs.set [("a", .num 3)] "k" (.num 1)) :=
  ⟨claim_C5.1 [("k", .num 1)] "k" (.num 2),
   claim_C5.2.1 [("a", .num 3)] "k" (.num 1)
     (by simp [nodupKeys, FluentArgs.keys])⟩

/-- C6: optional and newtype wrappers are transparent for both
converters (the single-value converter in both its direct-return and
slot forms, and the aggregate converter), and an absent optional at the
aggregate converter's top level succeeds without touching the
mapping. -/
theorem claim_C6 :
    (∀ v, valueSerialize (.vsome v) = valueSerialize v) ∧
    (∀ name v, valueSerialize (.vnewtypeStruct name v) = valueSerialize v) ∧
    (∀ name idx t v,
      valueSerialize (.vnewtypeVariant name idx t v) = valueSerialize v) ∧
    (∀ (s : ValueSerializer) (v : SValue),
      s.serialize (.vsome v) = s.serialize v) ∧
    (∀ (s : ValueSerializer) (name : String) (v : SValue),
      s.serialize (.vnewtypeStruct name v) = s.serialize v) ∧
    (∀ (s : ValueSerializer) (name : String) (idx : ℕ) (t : String)
        (v : SValue),
      s.serialize (.vnewtypeVariant name idx t v) = s.serialize v) ∧
    (∀ (s : ArgsSerializer) (v : SValue),
      argsSerialize s (.vsome v) = argsSerialize s v) ∧
    (∀ (s : ArgsSerializer) (name : String) (v : SValue),
      argsSerialize s (.vnewtypeStruct name v) = argsSerialize s v) ∧
    (∀ (s : ArgsSerializer) (name : String) (idx : ℕ) (t : String)
        (v : SValue),
      argsSerialize s (.vnewtypeVariant name idx t v) = argsSerialize s v) ∧
    (∀ s : ArgsSerializer, argsSerialize s .vnone = (s, .ok ())) :=
  ⟨fun _ => rfl, fun _ _ => rfl, fun _ _ _ _ => rfl,
   fun _ _ => rfl, fun _ _ _ => rfl, fun _ _ _ _ _ => rfl,
   fun _ _ => rfl, fun _ _ _ => rfl, fun _ _ _ _ _ => rfl,
   fun _ => rfl⟩

/-- C7 counterexample: a top-level 128-bit integer fails, but with
serde's default `Custom("i128 is not supported")` error — args.rs does
not override `serialize_i128` — so "every integer width fails with
UnsupportedType" is false as stated. -/
theorem claim_C7_cex :
    argsSerialize ⟨[]⟩ (.vint .i128 1) =
        (⟨[]⟩, .error (.Custom "i128 is not supported")) ∧
      (argsSerialize ⟨[]⟩ (.vint .i128 1)).2 ≠ .error .UnsupportedType := by
  decide

/-- C7 (amended): every scalar shape and every sequence/tuple-like shape
at the aggregate converter's top level fails and leaves the target
mapping (indeed the whole state) unchanged; the error is
UnsupportedType for every such shape except the 128-bit integer widths,
which fail with serde's default errors Custom("i128 is not supported")
and Custom("u128 is not supported") because args.rs does not override
`serialize_i128`/`serialize_u128`. -/
theorem claim_C7 :
    (∀ (s : ArgsSerializer) (b : Bool),
      argsSerialize s (.vbool b) = (s, .error .UnsupportedType)) ∧
    (∀ (s : ArgsSerializer) (w : IntWidth) (n : ℤ),
      w ≠ .i128 → w ≠ .u128 →
      argsSerialize s (.vint w n) = (s, .error .UnsupportedType)) ∧
    (∀ (s : ArgsSerializer) (n : ℤ),
      argsSerialize s (.vint .i128 n) =
        (s, .error (.Custom "i128 is not supported"))) ∧
    (∀ (s : ArgsSerializer) (n : ℤ),
      argsSerialize s (.vint .u128 n) =
        (s, .error (.Custom "u128 is not supported"))) ∧
    (∀ (s : ArgsSerializer) (w : FloatWidth) (x : ℚ),
      argsSerialize s (.vfloat w x) = (s, .error .UnsupportedType)) ∧
    (∀ (s : ArgsSerializer) (c : Char),
      argsSerialize s (.vchar c) = (s, .error .UnsupportedType)) ∧
    (∀ (s : ArgsSerializer) (t : String),
      argsSerialize s (.vstr t) = (s, .error .UnsupportedType)) ∧
    (∀ (s : ArgsSerializer) (bs : List ℕ),
      argsSerialize s (.vbytes bs) = (s, .error .UnsupportedType)) ∧
    (∀ (s : ArgsSerializer) (xs : List SValue),
      argsSerialize s (.vseq xs) = (s, .error .UnsupportedType)) ∧
    (∀ (s : ArgsSerializer) (xs : List SValue),
      argsSerialize s (.vtuple xs) = (s, .error .UnsupportedType)) ∧
    (∀ (s : ArgsSerializer) (name : String) (xs : List SValue),
      argsSerialize s (.vtupleStruct name xs) = (s, .error .UnsupportedType)) ∧
    (∀ (s : ArgsSerializer) (name : String) (idx : ℕ) (t : String)
        (xs : List SValue),
      argsSerialize s (.vtupleVariant name idx t xs) =
        (s, .error .UnsupportedType)) := by
  refine ⟨fun _ _ => rfl, ?_, fun _ _ => rfl, fun _ _ => rfl,
    fun _ _ _ => rfl, fun _ _ => rfl, fun _ _ => rfl, fun _ _ => rfl,
    fun _ _ => rfl, fun _ _ => rfl, fun _ _ _ => rfl,
    fun _ _ _ _ _ => rfl⟩
  intro s w n h1 h2
  cases w <;> first
    | rfl
    | exact absurd rfl h1
    | exact absurd rfl h2

/-- C7 witness: a non-128-bit width instantiating the hypotheses of the
amended integer conjunct. -/
theorem claim_C7_witness :
    argsSerialize ⟨[]⟩ (.vint .i32 5) = (⟨[]⟩, .error .UnsupportedType) :=
  claim_C7.2.1 ⟨[]⟩ .i32 5 (by decide) (by decide)

/-- C8: single-value conversion of a byte sequence yields the String of
its UTF-8 decoding exactly when the bytes decode, and fails with
NonUtf8Bytes exactly when they do not — no other outcome exists; in
particular bytes [102,111,111] yield String("foo"). -/
theorem claim_C8 :
    (∀ bs : List ℕ,
      (∃ cs, utf8Decode bs = some cs ∧
        valueSerialize (.vbytes bs) = .ok (.str (String.mk cs))) ∨
      (utf8Decode bs = none ∧
        valueSerialize (.vbytes bs) = .error .NonUtf8Bytes)) ∧
    valueSerialize (.vbytes [102, 111, 111]) = .ok (.str "foo") ∧
    valueSerialize (.vbytes [0xC3, 0x28]) = .error .NonUtf8Bytes := by
  refine ⟨?_, by decide, by decide⟩
  intro bs
  cases h : utf8Decode bs with
  | some cs => exact Or.inl ⟨cs, rfl, by simp [valueSerialize, h]⟩
  | none => exact Or.inr ⟨rfl, by simp [valueSerialize, h]⟩

/-- C9: the slot-form single-value converter writes its slot at most
once — an empty slot accepts the write, a populated slot rejects any
further write with AlreadyUsed keeping its first value, a successful
visit on a fresh converter always populates the slot, and no visit ever
modifies an already-populated converter. -/
theorem claim_C9 :
    (∀ (s : ValueSerializer) (fv : FluentValue), s.value = none →
      s.set_value fv = (⟨some fv⟩, .ok ())) ∧
    (∀ (s : ValueSerializer) (fv w : FluentValue), s.value = some w →
      s.set_value fv = (s, .error .AlreadyUsed)) ∧
    (∀ (v : SValue) (s' : ValueSerializer) (u : Unit),
      ValueSerializer.serialize ⟨none⟩ v = (s', .ok u) →
      s'.value.isSome = true) ∧
    (∀ (v : SValue) (s : ValueSerializer) (w : FluentValue),
      s.value = some w → (s.serialize v).1 = s) := by
  refine ⟨?_, ?_, ?_, ?_⟩
  · intro s fv h
    simp [ValueSerializer.set_value, h]
  · intro s fv w h
    simp [ValueSerializer.set_value, h]
  · intro v s' u h
    have heq := valueSerializer_serialize_fresh v
    rw [h] at heq
    cases hv : valueSerialize v with
    | ok fv =>
      rw [hv] at heq
      have hs : s' = ⟨some fv⟩ := congrArg Prod.fst heq
      rw [hs]
      rfl
    | error e =>
      rw [hv] at heq
      exact absurd (congrArg Prod.snd heq) (by simp)
  · exact fun v s w h => valueSerializer_serialize_used v s w h

/-- C9 witness: write-once behavior at concrete inputs. -/
theorem claim_C9_witness :
    ValueSerializer.set_value ⟨none⟩ (.num 1) = (⟨some (.num 1)⟩, .ok ()) ∧
      ValueSerializer.set_value ⟨some (.num 1)⟩ (.num 2) =
        (⟨some (.num 1)⟩, .error .AlreadyUsed) ∧
      ((⟨some (FluentValue.num 1)⟩ : ValueSerializer) :
        ValueSerializer).value.isSome = true ∧
      (ValueSerializer.serialize ⟨some (.num 1)⟩ (.vstr "x")).1 =
        ⟨some (.num 1)⟩ :=
  ⟨claim_C9.1 ⟨none⟩ (.num 1) rfl,
   claim_C9.2.1 ⟨some (.num 1)⟩ (.num 2) (.num 1) rfl,
   claim_C9.2.2.1 (.vbool true) ⟨some (.num 1)⟩ () (by decide),
   claim_C9.2.2.2 (.vstr "x") ⟨some (.num 1)⟩ (.num 1) rfl⟩

/-- C10: a key-visit made while a key is already pending, whose new key
converts to a String, returns InvalidSerMap but replaces the pending key
with the new one, discarding the old pending key; the mapping itself is
untouched by the failing call. -/
theorem claim_C10 :
    ∀ (a : FluentArgs) (old : String) (k : SValue) (s2 : String),
      valueSerialize k = .ok (.str s2) →
      SerMap.serialize_key ⟨a, some old⟩ k =
        (⟨a, some s2⟩, .error .InvalidSerMap) := by
  intro a old k s2 hk
  simp [SerMap.serialize_key, hk]

/-- C10 witness: the pending key "old" is replaced by "new" while the
call fails with InvalidSerMap and the mapping is unchanged. -/
theorem claim_C10_witness :
    SerMap.serialize_key ⟨[("p", .num 1)], some "old"⟩ (.vstr "new") =
      (⟨[("p", .num 1)], some "new"⟩, .error .InvalidSerMap) :=
  claim_C10 [("p", .num 1)] "old" (.vstr "new") "new" rfl
